import Mathlib

/-!
Verification of `src/utils.py` from google-api-utils: a thin utility layer
over the Google Drive v3 and Google Sheets v4 APIs.

Shallow embedding: every remote response (list results, download chunks,
update results, per-file delete outcomes) is an explicit input, and each
modelled function returns its Python return value together with the list of
observable events it performs, in order: API requests issued, `print` calls,
and filesystem writes.
-/

namespace GoogleApiUtils

/-- A file entry as returned by Drive `files.list` with fields `id, name`. -/
structure DriveFile where
  id : String
  name : String
  deriving Repr, DecidableEq

/-- A `files.list` response body. The code reads it with
`results.get` and a default, so the `files` key may be absent,
hence `Option`. -/
structure ListResponse where
  files : Option (List DriveFile)
  nextPageToken : Option String
  deriving Repr, DecidableEq

/-- The one exception kind caught from the vendor library
(`googleapiclient.errors.HttpError`); its payload is opaque here. -/
structure HttpError where
  msg : String
  deriving Repr, DecidableEq

/-- A dynamically-typed Python value, as far as the code needs one:
`download_spreadsheet` stores either a file-id string or the boolean
`False` in `id_gdrive`. -/
inductive PyVal where
  | str (s : String)
  | bool (b : Bool)
  deriving Repr, DecidableEq

/-- An unhandled Python exception escaping a modelled function. -/
inductive PyExn where
  | keyError (k : String)
  | typeError (msg : String)
  deriving Repr, DecidableEq

/-- Observable events, in program order: API requests, prints, filesystem
effects. `nextChunk` is one `downloader.next_chunk()` continuation of an
already-issued media request. -/
inductive Event where
  | listRequest (q : Option String) (pageSize : Nat) (fields : String)
  | exportMediaRequest (fileId : PyVal) (mimeType : String)
  | getMediaRequest (fileId : PyVal)
  | nextChunk
  | updateRequest (spreadsheetId : String) (range : String)
      (valueInputOption : String) (values : List (List String))
  | deleteRequest (fileId : String)
  | getRequest (fileId : String) (fields : String)
  | mkdir (path : String)
  | print (s : String)
  | write (path : String) (data : List Nat)
  deriving Repr, DecidableEq

/-- Events that issue a fresh API request. -/
def Event.isRequest : Event → Bool
  | .listRequest _ _ _ => true
  | .exportMediaRequest _ _ => true
  | .getMediaRequest _ => true
  | .updateRequest _ _ _ _ => true
  | .deleteRequest _ => true
  | .getRequest _ _ => true
  | _ => false

/-- Events that write file contents to disk. -/
def Event.isWrite : Event → Bool
  | .write _ _ => true
  | _ => false

/-- Events produced inside the download while-loop: chunk continuations and
progress prints. -/
def Event.isLoopEvent : Event → Bool
  | .nextChunk => true
  | .print _ => true
  | _ => false

/-- Insertion into a Python dict rendered as an association list: an
existing key is overwritten in place, a new key is appended. -/
def dictInsert (d : List (String × String)) (k v : String) :
    List (String × String) :=
  if d.any (fun p => p.1 = k) then
    d.map (fun p => if p.1 = k then (k, v) else p)
  else
    d ++ [(k, v)]

/-- The `fields` argument `list_files` passes to `files.list`. -/
def listFields : String := "nextPageToken, files(id, name)"

/-- Embeds `list_files`: one `files.list` call; on success the comprehension
turns the `files` items into a name-to-id dict (printing a note when the list
is empty); on `HttpError` it prints the error and falls off the end,
returning `None`. -/
def list_files (page_size : Nat) (resp : Except HttpError ListResponse) :
    Option (List (String × String)) × List Event :=
  let evs := [Event.listRequest none page_size listFields]
  match resp with
  | .error e =>
      (none, evs ++ [Event.print ("An error occurred: " ++ e.msg)])
  | .ok r =>
      let items := r.files.getD []
      if items.isEmpty then
        (some [], evs ++ [Event.print "No files found."])
      else
        (some (items.foldl (fun d it => dictInsert d it.name it.id) []),
         evs)

/-- The Excel-compatible MIME type hard-coded in `_download_gsheet_file`. -/
def xlsxMimeType : String :=
  "application/vnd.openxmlformats-officedocument.spreadsheetml.sheet"

/-- One outcome of `downloader.next_chunk()`: either a chunk of bytes with
the reported progress percentage and done flag, or a raised `HttpError`. -/
inductive ChunkResp where
  | chunk (data : List Nat) (progress : Nat) (done : Bool)
  | err (e : HttpError)
  deriving Repr, DecidableEq

/-- The bytes a chunk outcome contributes to the in-memory buffer. -/
def chunkData : ChunkResp → List Nat
  | .chunk data _ _ => data
  | .err _ => []

/-- A chunk outcome that keeps the while-loop going (`done` is `False`). -/
def ChunkResp.isMid : ChunkResp → Bool
  | .chunk _ _ done => !done
  | .err _ => false

/-- The `while done is False` loop shared by `_download_file` and
`_download_gsheet_file`: each iteration calls `next_chunk`, appends the
chunk to the in-memory `BytesIO` buffer and prints the progress; a raised
`HttpError` aborts the loop. `none` means the supplied outcome list ran
out before the loop finished (no such run exists in the model). -/
def runDownload :
    List ChunkResp → List Nat → List Event →
      Option (Except HttpError (List Nat) × List Event)
  | [], _, _ => none
  | .err e :: _, _, evs => some (.error e, evs ++ [Event.nextChunk])
  | .chunk data progress done :: rest, buf, evs =>
      let evs2 := evs ++
        [Event.nextChunk,
         Event.print ("Download " ++ toString progress ++ ".")]
      let buf2 := buf ++ data
      if done then some (.ok buf2, evs2) else runDownload rest buf2 evs2

/-- The events one run of the download loop emits: each `next_chunk` call,
followed by a progress print when the chunk arrives (a raised error prints
nothing). -/
def chunkEvents (resps : List ChunkResp) : List Event :=
  (resps.map (fun r =>
    match r with
    | .chunk _ progress _ =>
        [Event.nextChunk,
         Event.print ("Download " ++ toString progress ++ ".")]
    | .err _ => [Event.nextChunk])).flatten

/-- Embeds the private export-file helper: open the path for writing and
write the whole accumulated buffer value, in a single write. -/
def export_file (file : List Nat) (file_path : String) : List Event :=
  [Event.write file_path file]

/-- Embeds the private download-file helper: issue `get_media`, run the
chunk loop into an in-memory buffer, and on success (`BytesIO` objects are
always truthy, so `if file:` always holds) write the buffer to the path and
return `True`; a caught `HttpError` is returned as the result value. -/
def download_file (file_id : PyVal) (resps : List ChunkResp)
    (file_path : String) : Option ((HttpError ⊕ Bool) × List Event) :=
  match runDownload resps [] [Event.getMediaRequest file_id] with
  | none => none
  | some (.error e, evs) => some (Sum.inl e, evs)
  | some (.ok buf, evs) =>
      some (Sum.inr true, evs ++ export_file buf file_path)

/-- Embeds the private gsheet-download helper: same as `download_file`
but through `export_media` with the Excel MIME type. -/
def download_gsheet_file (file_id : PyVal) (resps : List ChunkResp)
    (file_path : String) : Option ((HttpError ⊕ Bool) × List Event) :=
  match runDownload resps []
      [Event.exportMediaRequest file_id xlsxMimeType] with
  | none => none
  | some (.error e, evs) => some (Sum.inl e, evs)
  | some (.ok buf, evs) =>
      some (Sum.inr true, evs ++ export_file buf file_path)

/-- The wall-clock instant `datetime.now()` observes. -/
structure DateTime where
  year : Nat
  month : Nat
  day : Nat
  hour : Nat
  minute : Nat
  second : Nat
  deriving Repr, DecidableEq

/-- Two-digit zero padding, as `strftime` does for numeric fields. -/
def pad2 (n : Nat) : String :=
  if n < 10 then "0" ++ toString n else toString n

/-- Embeds the private time-now helper: it formats the current instant
with the strftime pattern percent-Y, percent-m, percent-d, percent-H,
percent-S — year, month, day, hour and SECOND; the pattern has no
percent-M, so the minute field is never rendered. -/
def time_now (dt : DateTime) : String :=
  toString dt.year ++ pad2 dt.month ++ pad2 dt.day ++
    pad2 dt.hour ++ pad2 dt.second

/-- The suffix `download_spreadsheet` computes: an underscore followed by
the formatted time when `with_date` holds, the empty string otherwise. -/
def date_suffix (with_date : Bool) (dt : DateTime) : String :=
  if with_date then "_" ++ time_now dt else ""

/-- The path join the code performs via `Path`, rendered as a string. -/
def pathJoin (a b : String) : String := a ++ "/" ++ b

/-- The Python endswith test, rendered over the character list. -/
def endswith (s suffix : String) : Bool :=
  List.isSuffixOf suffix.data s.data

/-- Embeds `download_spreadsheet`: list files (page
size 100); look the name up with a `False` fallback; if `list_files`
returned `None` the `in` test raises `TypeError`; make the output folder;
route names ending in `xlsx`/`xls` through `_download_file` and everything
else through `_download_gsheet_file` with `.xlsx` appended. The result pairs
the Python outcome (an unhandled exception or the returned value)
with the full event trace. -/
def download_spreadsheet (file_name : String) (folder : String)
    (with_date : Bool) (dt : DateTime)
    (listResp : Except HttpError ListResponse) (resps : List ChunkResp) :
    Option (Except PyExn (HttpError ⊕ Bool) × List Event) :=
  let lr := list_files 100 listResp
  match lr.1 with
  | none =>
      some (.error (.typeError "argument of type NoneType is not iterable"),
        lr.2)
  | some files =>
      let id_gdrive : PyVal :=
        match List.lookup file_name files with
        | some v => .str v
        | none => .bool false
      let suffix := date_suffix with_date dt
      let out :=
        if endswith file_name "xlsx" || endswith file_name "xls" then
          download_file id_gdrive resps
            (pathJoin folder (file_name ++ suffix))
        else
          download_gsheet_file id_gdrive resps
            (pathJoin folder (file_name ++ suffix ++ ".xlsx"))
      out.map (fun p =>
        (.ok p.1, lr.2 ++ [Event.mkdir folder] ++ p.2))

/-- The opaque body the Sheets `values().update` call returns. -/
structure UpdateResult where
  payload : String
  deriving Repr, DecidableEq

/-- A pandas dataframe, reduced to what the code reads from it:
`dataframe.values.tolist()`, the rows as lists of cell values. -/
structure DataFrame where
  values : List (List String)
  deriving Repr, DecidableEq

/-- Embeds `export_dataframe_to_gsheet`: list files (page size 200); the
subscript on the listing raises `KeyError` when the name is missing (and
`TypeError` when `list_files` returned `None`); otherwise issue one
`update` call whose body holds the dataframe rows, whose range is the
sheet name, a bang and the cell address, with `valueInputOption` set to
`RAW`, and return the result of the call unchanged. -/
def export_dataframe_to_gsheet (dataframe : DataFrame)
    (gsheet_name : String) (sheet_name : String) (cell_address : String)
    (listResp : Except HttpError ListResponse) (updateResp : UpdateResult) :
    Except PyExn UpdateResult × List Event :=
  let lr := list_files 200 listResp
  match lr.1 with
  | none =>
      (.error (.typeError "NoneType object is not subscriptable"), lr.2)
  | some files =>
      match List.lookup gsheet_name files with
      | none => (.error (.keyError gsheet_name), lr.2)
      | some gsheet_id =>
          let range_name := sheet_name ++ "!" ++ cell_address
          (.ok updateResp,
            lr.2 ++ [Event.updateRequest gsheet_id range_name "RAW"
              dataframe.values])

/-- A call of `export_dataframe_to_gsheet` that omits `cell_address`,
whose Python default is `A2`. -/
def export_dataframe_to_gsheet_default (dataframe : DataFrame)
    (gsheet_name : String) (sheet_name : String)
    (listResp : Except HttpError ListResponse) (updateResp : UpdateResult) :
    Except PyExn UpdateResult × List Event :=
  export_dataframe_to_gsheet dataframe gsheet_name sheet_name "A2"
    listResp updateResp

/-- A single-quote character, for the Drive query string. -/
def sq : String := String.singleton (Char.ofNat 39)

/-- The `for file in items` loop of `empty_a_folder`: delete each file in
turn; a raised `HttpError` prints the error and returns `False` at once. -/
def deleteLoop (svc : String → Option HttpError) :
    List DriveFile → List Event → Bool × List Event
  | [], evs => (true, evs)
  | f :: rest, evs =>
      let evs2 := evs ++ [Event.deleteRequest f.id]
      match svc f.id with
      | some e =>
          (false, evs2 ++ [Event.print ("An error occurred: " ++ e.msg)])
      | none => deleteLoop svc rest evs2

/-- Embeds `empty_a_folder`: one `files.list` whose `q` query quotes the
folder id followed by a parents filter, with page size 1000 (this call is
outside any `try`), then delete each listed file; `True` when every
delete succeeds. `svc` gives the outcome of each delete call by file
id. -/
def empty_a_folder (folder_id : String) (resp : ListResponse)
    (svc : String → Option HttpError) : Bool × List Event :=
  let q := sq ++ folder_id ++ sq ++ " in parents"
  let items := resp.files.getD []
  deleteLoop svc items [Event.listRequest (some q) 1000 listFields]

/-- A `files.get` response body; the `modifiedTime` key may be absent. -/
structure FileMeta where
  modifiedTime : Option String
  deriving Repr, DecidableEq

/-- Embeds `get_file_modification_time`: one `files.get` asking for the
`modifiedTime` field; on success return that field of the response; a
caught `HttpError` prints the error and the function returns `None`. -/
def get_file_modification_time (file_id : String)
    (resp : Except HttpError FileMeta) : Option String × List Event :=
  let evs := [Event.getRequest file_id "modifiedTime"]
  match resp with
  | .ok f => (f.modifiedTime, evs)
  | .error e =>
      (none, evs ++ [Event.print ("An error occurred: " ++ e.msg)])

/-- Events that issue a Sheets `values().update` request. -/
def Event.isUpdate : Event → Bool
  | .updateRequest _ _ _ _ => true
  | _ => false

/-- The file items a list response carries (none when the call errored). -/
def respFiles : Except HttpError ListResponse → List DriveFile
  | .ok r => r.files.getD []
  | .error _ => []

/-- The dict a successful `list_files` call returns. -/
def okDict (page_size : Nat) (r : ListResponse) : List (String × String) :=
  (list_files page_size (Except.ok r)).1.getD []

/-- The value `download_spreadsheet` binds to `id_gdrive`: the looked-up id
string, or the boolean `False` fallback when the name is missing. -/
def idLookup (r : ListResponse) (file_name : String) : PyVal :=
  match List.lookup file_name (okDict 100 r) with
  | some v => PyVal.str v
  | none => PyVal.bool false

/-! ## Helper lemmas -/

lemma dictInsert_mem {d : List (String × String)} {k v : String}
    {p : String × String} (h : p ∈ dictInsert d k v) :
    p ∈ d ∨ p = (k, v) := by
  unfold dictInsert at h
  by_cases hc : d.any (fun q => q.1 = k)
  · rw [if_pos hc] at h
    rcases List.mem_map.mp h with ⟨q, hq, he⟩
    by_cases hk : q.1 = k
    · right
      rw [if_pos hk] at he
      exact he.symm
    · left
      rw [if_neg hk] at he
      exact he ▸ hq
  · rw [if_neg hc] at h
    rcases List.mem_append.mp h with h1 | h1
    · exact Or.inl h1
    · exact Or.inr (List.mem_singleton.mp h1)

lemma dictInsert_new {d : List (String × String)} {k : String}
    (h : ∀ q ∈ d, q.1 ≠ k) (v : String) :
    dictInsert d k v = d ++ [(k, v)] := by
  unfold dictInsert
  rw [if_neg]
  simp only [List.any_eq_true, decide_eq_true_eq, not_exists]
  intro q hq
  exact h q hq.1 hq.2

lemma foldl_dictInsert_mem {items : List DriveFile}
    {d : List (String × String)} {p : String × String}
    (h : p ∈ items.foldl (fun d it => dictInsert d it.name it.id) d) :
    p ∈ d ∨ ∃ f ∈ items, p = (f.name, f.id) := by
  induction items generalizing d with
  | nil => exact Or.inl h
  | cons f rest ih =>
      rcases ih h with h1 | ⟨g, hg, he⟩
      · rcases dictInsert_mem h1 with h2 | h2
        · exact Or.inl h2
        · exact Or.inr ⟨f, List.mem_cons_self f rest, h2⟩
      · exact Or.inr ⟨g, List.mem_cons_of_mem f hg, he⟩

lemma foldl_dictInsert_nodup : ∀ (items : List DriveFile)
    (d : List (String × String)),
    (items.map DriveFile.name).Nodup →
    (∀ q ∈ d, ∀ f ∈ items, q.1 ≠ f.name) →
    items.foldl (fun d it => dictInsert d it.name it.id) d =
      d ++ items.map (fun f => (f.name, f.id)) := by
  intro items
  induction items with
  | nil => intro d _ _; simp
  | cons f rest ih =>
      intro d hnd hdisj
      have hpair : (∀ x ∈ rest, ¬ x.name = f.name) ∧
          (rest.map DriveFile.name).Nodup := by simpa using hnd
      have hnew : ∀ q ∈ d, q.1 ≠ f.name := fun q hq =>
        hdisj q hq f (List.mem_cons_self f rest)
      have hdisj2 : ∀ q ∈ d ++ [(f.name, f.id)], ∀ g ∈ rest,
          q.1 ≠ g.name := by
        intro q hq g hg
        rcases List.mem_append.mp hq with h | h
        · exact hdisj q h g (List.mem_cons_of_mem f hg)
        · have hq2 : q = (f.name, f.id) := List.mem_singleton.mp h
          subst hq2
          intro he
          exact hpair.1 g hg he.symm
      calc (f :: rest).foldl (fun d it => dictInsert d it.name it.id) d
          = rest.foldl (fun d it => dictInsert d it.name it.id)
              (d ++ [(f.name, f.id)]) := by
            rw [List.foldl_cons, dictInsert_new hnew]
        _ = d ++ [(f.name, f.id)] ++
              rest.map (fun f => (f.name, f.id)) := ih _ hpair.2 hdisj2
        _ = d ++ (f :: rest).map (fun f => (f.name, f.id)) := by simp

lemma lookup_map_pair {items : List DriveFile} {f : DriveFile}
    (hnd : (items.map DriveFile.name).Nodup) (hf : f ∈ items) :
    List.lookup f.name (items.map (fun g => (g.name, g.id))) =
      some f.id := by
  induction items with
  | nil => cases hf
  | cons g rest ih =>
      rcases List.mem_cons.mp hf with h | h
      · subst h
        simp [List.lookup]
      · have hpair : (∀ x ∈ rest, ¬ x.name = g.name) ∧
            (rest.map DriveFile.name).Nodup := by simpa using hnd
        have hne : f.name ≠ g.name := fun he => hpair.1 f h he
        simp only [List.map_cons, List.lookup]
        rw [beq_eq_false_iff_ne.mpr hne]
        exact ih hpair.2 h

lemma chunkEvents_loop_only (resps : List ChunkResp) :
    (chunkEvents resps).all Event.isLoopEvent = true := by
  induction resps with
  | nil => rfl
  | cons r rest ih =>
      cases r <;>
        simp only [chunkEvents, List.map_cons, List.flatten_cons,
          List.all_append, List.all_cons, Bool.and_eq_true] <;>
        exact ⟨by simp [Event.isLoopEvent], by simpa [chunkEvents] using ih⟩

lemma loop_event_not_write {e : Event} (h : e.isLoopEvent = true) :
    e.isWrite = false := by
  cases e <;> simp_all [Event.isLoopEvent, Event.isWrite]

lemma loop_event_not_request {e : Event} (h : e.isLoopEvent = true) :
    e.isRequest = false := by
  cases e <;> simp_all [Event.isLoopEvent, Event.isRequest]

lemma runDownload_ok (body : List ChunkResp) (dlast : List Nat)
    (plast : Nat) :
    ∀ (buf : List Nat) (evs : List Event), (∀ r ∈ body, r.isMid = true) →
    runDownload (body ++ [ChunkResp.chunk dlast plast true]) buf evs =
      some (.ok (buf ++ ((body.map chunkData).flatten ++ dlast)),
        evs ++ chunkEvents (body ++ [ChunkResp.chunk dlast plast true])) := by
  induction body with
  | nil =>
      intro buf evs _
      simp [runDownload, chunkEvents]
  | cons r rest ih =>
      intro buf evs h
      have hr := h r (List.mem_cons_self r rest)
      cases r with
      | err e => simp [ChunkResp.isMid] at hr
      | chunk d p done =>
          have hd : done = false := by
            cases done
            · rfl
            · simp [ChunkResp.isMid] at hr
          subst hd
          have hrest : ∀ q ∈ rest, q.isMid = true := fun q hq =>
            h q (List.mem_cons_of_mem _ hq)
          rw [List.cons_append]
          show runDownload _ _ _ = _
          rw [runDownload]
          simp only [if_false, Bool.false_eq_true]
          rw [ih (buf ++ d) _ hrest]
          simp [chunkEvents, chunkData, List.append_assoc]

lemma runDownload_err (pre : List ChunkResp) (e : HttpError) :
    ∀ (buf : List Nat) (evs : List Event), (∀ r ∈ pre, r.isMid = true) →
    runDownload (pre ++ [ChunkResp.err e]) buf evs =
      some (.error e, evs ++ chunkEvents (pre ++ [ChunkResp.err e])) := by
  induction pre with
  | nil =>
      intro buf evs _
      simp [runDownload, chunkEvents]
  | cons r rest ih =>
      intro buf evs h
      have hr := h r (List.mem_cons_self r rest)
      cases r with
      | err e2 => simp [ChunkResp.isMid] at hr
      | chunk d p done =>
          have hd : done = false := by
            cases done
            · rfl
            · simp [ChunkResp.isMid] at hr
          subst hd
          have hrest : ∀ q ∈ rest, q.isMid = true := fun q hq =>
            h q (List.mem_cons_of_mem _ hq)
          rw [List.cons_append]
          show runDownload _ _ _ = _
          rw [runDownload]
          simp only [if_false, Bool.false_eq_true]
          rw [ih (buf ++ d) _ hrest]
          simp [chunkEvents, List.append_assoc]

lemma runDownload_trace (resps : List ChunkResp) :
    ∀ (buf : List Nat) (evs : List Event) r tr,
    runDownload resps buf evs = some (r, tr) →
    ∃ evs2, tr = evs ++ evs2 ∧ evs2.all Event.isLoopEvent = true := by
  induction resps with
  | nil => intro buf evs r tr h; cases h
  | cons c rest ih =>
      intro buf evs r tr h
      cases c with
      | err e =>
          rw [runDownload] at h
          injection h with h2
          injection h2 with h3 h4
          exact ⟨[Event.nextChunk], h4.symm, by simp [Event.isLoopEvent]⟩
      | chunk d p done =>
          rw [runDownload] at h
          by_cases hd : done = true
          · rw [if_pos (by simp [hd])] at h
            injection h with h2
            injection h2 with h3 h4
            refine ⟨[Event.nextChunk,
              Event.print ("Download " ++ toString p ++ ".")],
              h4.symm, by simp [Event.isLoopEvent]⟩
          · rw [if_neg (by simpa using hd)] at h
            rcases ih (buf ++ d) _ r tr h with ⟨evs2, he, hall⟩
            refine ⟨[Event.nextChunk,
              Event.print ("Download " ++ toString p ++ ".")] ++ evs2,
              by simpa [List.append_assoc] using he, ?_⟩
            simp only [List.all_append, Bool.and_eq_true]
            exact ⟨by simp [Event.isLoopEvent], hall⟩

lemma loop_only_filter_request {l : List Event}
    (h : l.all Event.isLoopEvent = true) :
    l.filter Event.isRequest = [] := by
  induction l with
  | nil => rfl
  | cons x xs ih =>
      simp only [List.all_cons, Bool.and_eq_true] at h
      simp [List.filter_cons, loop_event_not_request h.1, ih h.2]

lemma loop_only_no_write {l : List Event}
    (h : l.all Event.isLoopEvent = true) :
    l.all (fun ev => !ev.isWrite) = true := by
  rw [List.all_eq_true] at h ⊢
  intro x hx
  simp [loop_event_not_write (h x hx)]

lemma list_files_ok_fst (page_size : Nat) (r : ListResponse) :
    (list_files page_size (Except.ok r)).1 = some (okDict page_size r) := by
  unfold okDict
  by_cases hc : (r.files.getD []).isEmpty <;> simp [list_files, hc]

lemma list_files_no_update (page_size : Nat)
    (resp : Except HttpError ListResponse) :
    (list_files page_size resp).2.filter Event.isUpdate = [] := by
  rcases resp with e | r
  · simp [list_files, Event.isUpdate]
  · by_cases hc : (r.files.getD []).isEmpty <;>
      simp [list_files, hc, Event.isUpdate]

lemma download_spreadsheet_ok_unfold (file_name folder : String)
    (wd : Bool) (dt : DateTime) (r : ListResponse)
    (resps : List ChunkResp) :
    download_spreadsheet file_name folder wd dt (Except.ok r) resps =
      (if endswith file_name "xlsx" || endswith file_name "xls" then
        download_file (idLookup r file_name) resps
          (pathJoin folder (file_name ++ date_suffix wd dt))
      else
        download_gsheet_file (idLookup r file_name) resps
          (pathJoin folder (file_name ++ date_suffix wd dt ++ ".xlsx"))).map
        (fun p => (Except.ok p.1,
          (list_files 100 (Except.ok r)).2 ++ [Event.mkdir folder] ++ p.2)) := by
  simp only [download_spreadsheet, idLookup]
  rw [list_files_ok_fst 100 r]

lemma deleteLoop_all_ok (svc : String → Option HttpError) :
    ∀ (items : List DriveFile) (evs : List Event),
    (∀ f ∈ items, svc f.id = none) →
    deleteLoop svc items evs =
      (true, evs ++ items.map (fun f => Event.deleteRequest f.id)) := by
  intro items
  induction items with
  | nil => intro evs _; simp [deleteLoop]
  | cons f rest ih =>
      intro evs h
      have hf := h f (List.mem_cons_self f rest)
      rw [deleteLoop, hf]
      rw [ih _ (fun g hg => h g (List.mem_cons_of_mem f hg))]
      simp

lemma deleteLoop_err (svc : String → Option HttpError)
    (f : DriveFile) (post : List DriveFile) (e : HttpError) :
    ∀ (pre : List DriveFile) (evs : List Event),
    (∀ g ∈ pre, svc g.id = none) → svc f.id = some e →
    deleteLoop svc (pre ++ f :: post) evs =
      (false, evs ++ (pre ++ [f]).map (fun g => Event.deleteRequest g.id) ++
        [Event.print ("An error occurred: " ++ e.msg)]) := by
  intro pre
  induction pre with
  | nil =>
      intro evs _ hf
      rw [List.nil_append, deleteLoop, hf]
      simp
  | cons g rest ih =>
      intro evs h hf
      have hg := h g (List.mem_cons_self g rest)
      rw [List.cons_append, deleteLoop, hg]
      rw [ih _ (fun q hq => h q (List.mem_cons_of_mem g hq)) hf]
      simp

/-! ## Claim theorems -/

/-- C1: for every `files.list` response (with pairwise-distinct file names,
as the dict comprehension requires for a faithful mapping), `list_files`
returns the dictionary mapping the name of each listed file to its id; in
particular a two-file response yields the two-entry mapping and an empty
file list yields the empty dictionary (see the witness). -/
theorem list_files_name_to_id (page_size : Nat) (items : List DriveFile)
    (tok : Option String) (hnd : (items.map DriveFile.name).Nodup) :
    (list_files page_size (Except.ok ⟨some items, tok⟩)).1 =
      some (items.map (fun f => (f.name, f.id))) ∧
    ∀ f ∈ items,
      List.lookup f.name
        ((list_files page_size (Except.ok ⟨some items, tok⟩)).1.getD []) =
      some f.id := by
  have h1 : (list_files page_size (Except.ok ⟨some items, tok⟩)).1 =
      some (items.map (fun f => (f.name, f.id))) := by
    rcases items with _ | ⟨f, rest⟩
    · simp [list_files]
    · have he := foldl_dictInsert_nodup (f :: rest) [] hnd (by simp)
      simp [list_files, he]
  refine ⟨h1, ?_⟩
  intro f hf
  rw [h1, Option.getD_some]
  exact lookup_map_pair hnd hf

/-- C1 witness: the two-file mock and the empty response. -/
theorem list_files_name_to_id_witness :
    (([⟨"id1", "alpha"⟩, ⟨"id2", "beta"⟩] : List DriveFile).map
        DriveFile.name).Nodup ∧
    ((list_files 10 (Except.ok
        ⟨some [⟨"id1", "alpha"⟩, ⟨"id2", "beta"⟩], none⟩)).1 =
      some [("alpha", "id1"), ("beta", "id2")] ∧
    ∀ f ∈ ([⟨"id1", "alpha"⟩, ⟨"id2", "beta"⟩] : List DriveFile),
      List.lookup f.name
        ((list_files 10 (Except.ok
          ⟨some [⟨"id1", "alpha"⟩, ⟨"id2", "beta"⟩], none⟩)).1.getD []) =
      some f.id) ∧
    (list_files 10 (Except.ok ⟨some [], none⟩)).1 = some [] :=
  ⟨by decide, list_files_name_to_id 10 _ none (by decide),
    (list_files_name_to_id 10 [] none (by decide)).1⟩

/-- C6: for every page size and every response, `list_files` issues exactly
one `files.list` request, with that page size, and no follow-up request for
the `nextPageToken`; every entry of the returned mapping comes from the
single returned page. -/
theorem list_files_single_request (page_size : Nat)
    (resp : Except HttpError ListResponse) :
    (list_files page_size resp).2.filter Event.isRequest =
      [Event.listRequest none page_size listFields] ∧
    ∀ kv ∈ (list_files page_size resp).1.getD [],
      ∃ f ∈ respFiles resp, kv = (f.name, f.id) := by
  constructor
  · rcases resp with e | r
    · simp [list_files, Event.isRequest]
    · by_cases hc : (r.files.getD []).isEmpty <;>
        simp [list_files, hc, Event.isRequest]
  · intro kv hkv
    rcases resp with e | r
    · simp [list_files] at hkv
    · rcases hr : r.files.getD [] with _ | ⟨f, rest⟩
      · simp [list_files, hr] at hkv
      · simp only [list_files, hr, List.isEmpty_cons, Bool.false_eq_true,
          if_false, Option.getD_some] at hkv
        rcases foldl_dictInsert_mem hkv with h | h
        · cases h
        · simpa [respFiles, hr] using h

/-- C6 witness: a concrete one-file page. -/
theorem list_files_single_request_witness :
    (list_files 5 (Except.ok ⟨some [⟨"i1", "n1"⟩], none⟩)).2.filter
        Event.isRequest =
      [Event.listRequest none 5 listFields] ∧
    ∀ kv ∈ (list_files 5 (Except.ok ⟨some [⟨"i1", "n1"⟩], none⟩)).1.getD [],
      ∃ f ∈ respFiles (Except.ok ⟨some [⟨"i1", "n1"⟩], none⟩),
        kv = (f.name, f.id) :=
  list_files_single_request 5 (Except.ok ⟨some [⟨"i1", "n1"⟩], none⟩)

/-- C4: on an `HttpError`, `list_files` and `get_file_modification_time`
print the error and yield `None`, while `_download_file` and
`_download_gsheet_file` return the error object as the result value; every
error branch issues its one request and performs no retry (the trace holds
exactly one request event) and writes nothing to disk. -/
theorem http_error_handling (e : HttpError) :
    (∀ page_size : Nat, list_files page_size (Except.error e) =
      (none, [Event.listRequest none page_size listFields,
        Event.print ("An error occurred: " ++ e.msg)])) ∧
    (∀ file_id : String,
      get_file_modification_time file_id (Except.error e) =
        (none, [Event.getRequest file_id "modifiedTime",
          Event.print ("An error occurred: " ++ e.msg)])) ∧
    (∀ (fid : PyVal) (pre : List ChunkResp) (path : String),
      (∀ r ∈ pre, r.isMid = true) →
      download_file fid (pre ++ [ChunkResp.err e]) path =
        some (Sum.inl e, Event.getMediaRequest fid ::
          chunkEvents (pre ++ [ChunkResp.err e])) ∧
      (Event.getMediaRequest fid ::
          chunkEvents (pre ++ [ChunkResp.err e])).filter Event.isRequest =
        [Event.getMediaRequest fid] ∧
      (Event.getMediaRequest fid ::
          chunkEvents (pre ++ [ChunkResp.err e])).all
        (fun ev => !ev.isWrite) = true) ∧
    (∀ (fid : PyVal) (pre : List ChunkResp) (path : String),
      (∀ r ∈ pre, r.isMid = true) →
      download_gsheet_file fid (pre ++ [ChunkResp.err e]) path =
        some (Sum.inl e, Event.exportMediaRequest fid xlsxMimeType ::
          chunkEvents (pre ++ [ChunkResp.err e])) ∧
      (Event.exportMediaRequest fid xlsxMimeType ::
          chunkEvents (pre ++ [ChunkResp.err e])).filter Event.isRequest =
        [Event.exportMediaRequest fid xlsxMimeType] ∧
      (Event.exportMediaRequest fid xlsxMimeType ::
          chunkEvents (pre ++ [ChunkResp.err e])).all
        (fun ev => !ev.isWrite) = true) := by
  refine ⟨fun page_size => by simp [list_files],
    fun file_id => by simp [get_file_modification_time], ?_, ?_⟩
  · intro fid pre path h
    refine ⟨?_, ?_, ?_⟩
    · unfold download_file
      rw [runDownload_err pre e [] [Event.getMediaRequest fid] h]
      rfl
    · simp [List.filter_cons, Event.isRequest,
        loop_only_filter_request (chunkEvents_loop_only _)]
    · simp only [List.all_cons, Bool.and_eq_true]
      exact ⟨by simp [Event.isWrite],
        loop_only_no_write (chunkEvents_loop_only _)⟩
  · intro fid pre path h
    refine ⟨?_, ?_, ?_⟩
    · unfold download_gsheet_file
      rw [runDownload_err pre e []
        [Event.exportMediaRequest fid xlsxMimeType] h]
      rfl
    · simp [List.filter_cons, Event.isRequest,
        loop_only_filter_request (chunkEvents_loop_only _)]
    · simp only [List.all_cons, Bool.and_eq_true]
      exact ⟨by simp [Event.isWrite],
        loop_only_no_write (chunkEvents_loop_only _)⟩

/-- C4 witness: a concrete error raised on the first chunk. -/
theorem http_error_handling_witness :
    (list_files 7 (Except.error ⟨"boom"⟩) =
      (none, [Event.listRequest none 7 listFields,
        Event.print ("An error occurred: " ++ "boom")])) ∧
    (get_file_modification_time "f1" (Except.error ⟨"boom"⟩) =
      (none, [Event.getRequest "f1" "modifiedTime",
        Event.print ("An error occurred: " ++ "boom")])) ∧
    (download_file (PyVal.str "f1") ([] ++ [ChunkResp.err ⟨"boom"⟩]) "o" =
        some (Sum.inl ⟨"boom"⟩, Event.getMediaRequest (PyVal.str "f1") ::
          chunkEvents ([] ++ [ChunkResp.err ⟨"boom"⟩])) ∧
      (Event.getMediaRequest (PyVal.str "f1") ::
          chunkEvents ([] ++ [ChunkResp.err ⟨"boom"⟩])).filter
        Event.isRequest = [Event.getMediaRequest (PyVal.str "f1")] ∧
      (Event.getMediaRequest (PyVal.str "f1") ::
          chunkEvents ([] ++ [ChunkResp.err ⟨"boom"⟩])).all
        (fun ev => !ev.isWrite) = true) ∧
    (download_gsheet_file (PyVal.str "f1")
          ([] ++ [ChunkResp.err ⟨"boom"⟩]) "o" =
        some (Sum.inl ⟨"boom"⟩,
          Event.exportMediaRequest (PyVal.str "f1") xlsxMimeType ::
            chunkEvents ([] ++ [ChunkResp.err ⟨"boom"⟩])) ∧
      (Event.exportMediaRequest (PyVal.str "f1") xlsxMimeType ::
          chunkEvents ([] ++ [ChunkResp.err ⟨"boom"⟩])).filter
        Event.isRequest =
          [Event.exportMediaRequest (PyVal.str "f1") xlsxMimeType] ∧
      (Event.exportMediaRequest (PyVal.str "f1") xlsxMimeType ::
          chunkEvents ([] ++ [ChunkResp.err ⟨"boom"⟩])).all
        (fun ev => !ev.isWrite) = true) :=
  ⟨(http_error_handling ⟨"boom"⟩).1 7,
    (http_error_handling ⟨"boom"⟩).2.1 "f1",
    (http_error_handling ⟨"boom"⟩).2.2.1 (PyVal.str "f1") [] "o"
      (by decide),
    (http_error_handling ⟨"boom"⟩).2.2.2 (PyVal.str "f1") [] "o"
      (by decide)⟩

/-- C2: for every successful download (a run of not-done chunks closed by a
done chunk), `_download_file` consumes chunk by chunk into the in-memory
buffer, returns `True`, and its trace is the media request, the loop
chunk and progress events — none of which writes to disk — then exactly one
final write of the accumulated buffer to the given path. -/
theorem download_file_streams_then_writes_once (fid : PyVal)
    (body : List ChunkResp) (dlast : List Nat) (plast : Nat)
    (path : String) (h : ∀ r ∈ body, r.isMid = true) :
    download_file fid (body ++ [ChunkResp.chunk dlast plast true]) path =
      some (Sum.inr true,
        (Event.getMediaRequest fid ::
          chunkEvents (body ++ [ChunkResp.chunk dlast plast true])) ++
        [Event.write path ((body.map chunkData).flatten ++ dlast)]) ∧
    (Event.getMediaRequest fid ::
        chunkEvents (body ++ [ChunkResp.chunk dlast plast true])).all
      (fun ev => !ev.isWrite) = true := by
  constructor
  · unfold download_file
    rw [runDownload_ok body dlast plast [] [Event.getMediaRequest fid] h]
    simp [export_file]
  · simp only [List.all_cons, Bool.and_eq_true]
    exact ⟨by simp [Event.isWrite],
      loop_only_no_write (chunkEvents_loop_only _)⟩

/-- C2 witness: a two-chunk download. -/
theorem download_file_streams_then_writes_once_witness :
    (∀ r ∈ [ChunkResp.chunk [1, 2] 50 false], r.isMid = true) ∧
    (download_file (PyVal.str "abc")
        ([ChunkResp.chunk [1, 2] 50 false] ++
          [ChunkResp.chunk [3] 100 true]) "out/f" =
      some (Sum.inr true,
        (Event.getMediaRequest (PyVal.str "abc") ::
          chunkEvents ([ChunkResp.chunk [1, 2] 50 false] ++
            [ChunkResp.chunk [3] 100 true])) ++
        [Event.write "out/f"
          (([ChunkResp.chunk [1, 2] 50 false].map chunkData).flatten ++
            [3])]) ∧
    (Event.getMediaRequest (PyVal.str "abc") ::
        chunkEvents ([ChunkResp.chunk [1, 2] 50 false] ++
          [ChunkResp.chunk [3] 100 true])).all
      (fun ev => !ev.isWrite) = true) :=
  ⟨by decide, download_file_streams_then_writes_once (PyVal.str "abc")
    [ChunkResp.chunk [1, 2] 50 false] [3] 100 "out/f" (by decide)⟩

/-- C3: `_download_gsheet_file` goes through the Drive export endpoint with
the Excel-compatible MIME type, and `download_spreadsheet` routes every
name not ending in `xlsx` or `xls` through it, appending `.xlsx` to the
output file name. -/
theorem gsheet_export_mime_and_routing :
    xlsxMimeType =
      "application/vnd.openxmlformats-officedocument.spreadsheetml.sheet" ∧
    (∀ (fid : PyVal) (resps : List ChunkResp) (path : String)
      (res : (HttpError ⊕ Bool) × List Event),
      download_gsheet_file fid resps path = some res →
      ∃ rest, res.2 = Event.exportMediaRequest fid xlsxMimeType :: rest) ∧
    (∀ (file_name folder : String) (wd : Bool) (dt : DateTime)
      (r : ListResponse) (resps : List ChunkResp),
      endswith file_name "xlsx" = false →
      endswith file_name "xls" = false →
      download_spreadsheet file_name folder wd dt (Except.ok r) resps =
        (download_gsheet_file (idLookup r file_name) resps
          (pathJoin folder
            (file_name ++ date_suffix wd dt ++ ".xlsx"))).map
          (fun p => (Except.ok p.1,
            (list_files 100 (Except.ok r)).2 ++
              [Event.mkdir folder] ++ p.2))) := by
  refine ⟨rfl, ?_, ?_⟩
  · intro fid resps path res hres
    unfold download_gsheet_file at hres
    rcases hrun : runDownload resps []
        [Event.exportMediaRequest fid xlsxMimeType] with _ | ⟨er, tr⟩
    · rw [hrun] at hres
      cases hres
    · rcases runDownload_trace resps [] _ er tr hrun with ⟨evs2, he, _⟩
      rcases er with e2 | buf
      · rw [hrun] at hres
        have hres2 : some (Sum.inl e2, tr) = some res := hres
        injection hres2 with h3
        subst h3
        exact ⟨evs2, by simpa using he⟩
      · rw [hrun] at hres
        have hres2 :
            some (Sum.inr true, tr ++ export_file buf path) = some res :=
          hres
        injection hres2 with h3
        subst h3
        refine ⟨evs2 ++ export_file buf path, ?_⟩
        simp [he, export_file]
  · intro file_name folder wd dt r resps h1 h2
    rw [download_spreadsheet_ok_unfold, h1, h2]
    simp

/-- C3 witness: a one-chunk export and a routed non-`xlsx` name. -/
theorem gsheet_export_mime_and_routing_witness :
    (download_gsheet_file (PyVal.str "z") [ChunkResp.chunk [7] 100 true]
        "p" = some (Sum.inr true,
          [Event.exportMediaRequest (PyVal.str "z") xlsxMimeType,
           Event.nextChunk, Event.print "Download 100.",
           Event.write "p" [7]])) ∧
    (∃ rest,
      ((Sum.inr true,
        [Event.exportMediaRequest (PyVal.str "z") xlsxMimeType,
         Event.nextChunk, Event.print "Download 100.",
         Event.write "p" [7]]) :
          (HttpError ⊕ Bool) × List Event).2 =
        Event.exportMediaRequest (PyVal.str "z") xlsxMimeType :: rest) ∧
    (endswith "report" "xlsx" = false ∧ endswith "report" "xls" = false) ∧
    download_spreadsheet "report" "out" false ⟨2026, 10, 12, 9, 0, 30⟩
        (Except.ok ⟨some [], none⟩) [] =
      (download_gsheet_file (idLookup ⟨some [], none⟩ "report") []
        (pathJoin "out" ("report" ++
          date_suffix false ⟨2026, 10, 12, 9, 0, 30⟩ ++ ".xlsx"))).map
        (fun p => (Except.ok p.1,
          (list_files 100 (Except.ok ⟨some [], none⟩)).2 ++
            [Event.mkdir "out"] ++ p.2)) :=
  ⟨by decide,
    gsheet_export_mime_and_routing.2.1 (PyVal.str "z")
      [ChunkResp.chunk [7] 100 true] "p" _ (by decide),
    ⟨by decide, by decide⟩,
    gsheet_export_mime_and_routing.2.2 "report" "out" false
      ⟨2026, 10, 12, 9, 0, 30⟩ ⟨some [], none⟩ [] (by decide) (by decide)⟩

/-- C9: the suffix `download_spreadsheet` appends when `with_date` is true
is an underscore followed by `_time_now()`, which renders year, month, day,
hour and second — the format has no minutes component — and with
`with_date` false the suffix is empty; the suffix lands in the output path
of whichever download helper the name routes to. -/
theorem download_spreadsheet_date_suffix :
    (∀ dt : DateTime, date_suffix true dt = "_" ++ time_now dt ∧
      date_suffix false dt = "") ∧
    (∀ y mo d h mi s : Nat,
      time_now ⟨y, mo, d, h, mi, s⟩ =
        toString y ++ pad2 mo ++ pad2 d ++ pad2 h ++ pad2 s ∧
      time_now ⟨y, mo, d, h, mi, s⟩ = time_now ⟨y, mo, d, h, 0, s⟩) ∧
    (∀ (file_name folder : String) (wd : Bool) (dt : DateTime)
      (r : ListResponse) (resps : List ChunkResp),
      (endswith file_name "xlsx" || endswith file_name "xls") = true →
      download_spreadsheet file_name folder wd dt (Except.ok r) resps =
        (download_file (idLookup r file_name) resps
          (pathJoin folder (file_name ++ date_suffix wd dt))).map
          (fun p => (Except.ok p.1,
            (list_files 100 (Except.ok r)).2 ++
              [Event.mkdir folder] ++ p.2))) ∧
    (∀ (file_name folder : String) (wd : Bool) (dt : DateTime)
      (r : ListResponse) (resps : List ChunkResp),
      (endswith file_name "xlsx" || endswith file_name "xls") = false →
      download_spreadsheet file_name folder wd dt (Except.ok r) resps =
        (download_gsheet_file (idLookup r file_name) resps
          (pathJoin folder
            (file_name ++ date_suffix wd dt ++ ".xlsx"))).map
          (fun p => (Except.ok p.1,
            (list_files 100 (Except.ok r)).2 ++
              [Event.mkdir folder] ++ p.2))) := by
  refine ⟨fun dt => ⟨rfl, rfl⟩, fun y mo d h mi s => ⟨rfl, rfl⟩, ?_, ?_⟩
  · intro file_name folder wd dt r resps hc
    rw [download_spreadsheet_ok_unfold, hc]
    simp
  · intro file_name folder wd dt r resps hc
    rw [download_spreadsheet_ok_unfold, hc]
    simp

/-- C9 witness: a concrete instant, an `xlsx` name and a plain name. -/
theorem download_spreadsheet_date_suffix_witness :
    (date_suffix true ⟨2026, 10, 12, 9, 41, 5⟩ =
      "_" ++ time_now ⟨2026, 10, 12, 9, 41, 5⟩ ∧
      date_suffix false ⟨2026, 10, 12, 9, 41, 5⟩ = "") ∧
    (time_now ⟨2026, 10, 12, 9, 41, 5⟩ =
      toString 2026 ++ pad2 10 ++ pad2 12 ++ pad2 9 ++ pad2 5 ∧
      time_now ⟨2026, 10, 12, 9, 41, 5⟩ =
        time_now ⟨2026, 10, 12, 9, 0, 5⟩) ∧
    ((endswith "data.xlsx" "xlsx" || endswith "data.xlsx" "xls") = true) ∧
    (download_spreadsheet "data.xlsx" "out" true ⟨2026, 10, 12, 9, 41, 5⟩
        (Except.ok ⟨some [], none⟩) [] =
      (download_file (idLookup ⟨some [], none⟩ "data.xlsx") []
        (pathJoin "out" ("data.xlsx" ++
          date_suffix true ⟨2026, 10, 12, 9, 41, 5⟩))).map
        (fun p => (Except.ok p.1,
          (list_files 100 (Except.ok ⟨some [], none⟩)).2 ++
            [Event.mkdir "out"] ++ p.2))) ∧
    ((endswith "report" "xlsx" || endswith "report" "xls") = false) ∧
    download_spreadsheet "report" "out" true ⟨2026, 10, 12, 9, 41, 5⟩
        (Except.ok ⟨some [], none⟩) [] =
      (download_gsheet_file (idLookup ⟨some [], none⟩ "report") []
        (pathJoin "out" ("report" ++
          date_suffix true ⟨2026, 10, 12, 9, 41, 5⟩ ++ ".xlsx"))).map
        (fun p => (Except.ok p.1,
          (list_files 100 (Except.ok ⟨some [], none⟩)).2 ++
            [Event.mkdir "out"] ++ p.2)) :=
  ⟨download_spreadsheet_date_suffix.1 ⟨2026, 10, 12, 9, 41, 5⟩,
    download_spreadsheet_date_suffix.2.1 2026 10 12 9 41 5,
    by decide,
    download_spreadsheet_date_suffix.2.2.1 "data.xlsx" "out" true
      ⟨2026, 10, 12, 9, 41, 5⟩ ⟨some [], none⟩ [] (by decide),
    by decide,
    download_spreadsheet_date_suffix.2.2.2 "report" "out" true
      ⟨2026, 10, 12, 9, 41, 5⟩ ⟨some [], none⟩ [] (by decide)⟩

/-- C10: when the requested name is missing from the listing,
`download_spreadsheet` does not raise at the lookup: `id_gdrive` becomes
the boolean `False`, that value is passed as the `fileId` to the download
helper, and whatever the helper returns is relayed as a normal (non-raised)
result. -/
theorem download_spreadsheet_missing_name_false_id
    (file_name folder : String) (wd : Bool) (dt : DateTime)
    (r : ListResponse) (resps : List ChunkResp)
    (h : List.lookup file_name (okDict 100 r) = none) :
    idLookup r file_name = PyVal.bool false ∧
    download_spreadsheet file_name folder wd dt (Except.ok r) resps =
      (if endswith file_name "xlsx" || endswith file_name "xls" then
        download_file (PyVal.bool false) resps
          (pathJoin folder (file_name ++ date_suffix wd dt))
      else
        download_gsheet_file (PyVal.bool false) resps
          (pathJoin folder
            (file_name ++ date_suffix wd dt ++ ".xlsx"))).map
        (fun p => (Except.ok p.1,
          (list_files 100 (Except.ok r)).2 ++
            [Event.mkdir folder] ++ p.2)) ∧
    ∀ x, download_spreadsheet file_name folder wd dt (Except.ok r) resps =
      some x → ∃ v, x.1 = Except.ok v := by
  have hid : idLookup r file_name = PyVal.bool false := by
    unfold idLookup
    rw [h]
  refine ⟨hid, ?_, ?_⟩
  · rw [download_spreadsheet_ok_unfold, hid]
  · intro x hx
    rw [download_spreadsheet_ok_unfold] at hx
    rcases Option.map_eq_some'.mp hx with ⟨p, hp, hpx⟩
    subst hpx
    exact ⟨p.1, rfl⟩

/-- C10 witness: a listing that lacks the name `report`. -/
theorem download_spreadsheet_missing_name_false_id_witness :
    List.lookup "report" (okDict 100 ⟨some [⟨"i1", "other"⟩], none⟩) =
      none ∧
    (idLookup ⟨some [⟨"i1", "other"⟩], none⟩ "report" =
      PyVal.bool false ∧
    download_spreadsheet "report" "out" true ⟨2026, 10, 12, 9, 41, 5⟩
        (Except.ok ⟨some [⟨"i1", "other"⟩], none⟩) [] =
      (if endswith "report" "xlsx" || endswith "report" "xls" then
        download_file (PyVal.bool false) []
          (pathJoin "out" ("report" ++
            date_suffix true ⟨2026, 10, 12, 9, 41, 5⟩))
      else
        download_gsheet_file (PyVal.bool false) []
          (pathJoin "out" ("report" ++
            date_suffix true ⟨2026, 10, 12, 9, 41, 5⟩ ++ ".xlsx"))).map
        (fun p => (Except.ok p.1,
          (list_files 100
            (Except.ok ⟨some [⟨"i1", "other"⟩], none⟩)).2 ++
            [Event.mkdir "out"] ++ p.2)) ∧
    ∀ x, download_spreadsheet "report" "out" true
        ⟨2026, 10, 12, 9, 41, 5⟩
        (Except.ok ⟨some [⟨"i1", "other"⟩], none⟩) [] = some x →
      ∃ v, x.1 = Except.ok v) :=
  ⟨by decide, download_spreadsheet_missing_name_false_id "report" "out"
    true ⟨2026, 10, 12, 9, 41, 5⟩ ⟨some [⟨"i1", "other"⟩], none⟩ []
    (by decide)⟩

lemma export_dataframe_ok_unfold (df : DataFrame)
    (gsheet_name sheet_name cell : String) (r : ListResponse)
    (ur : UpdateResult) :
    export_dataframe_to_gsheet df gsheet_name sheet_name cell
        (Except.ok r) ur =
      match List.lookup gsheet_name (okDict 200 r) with
      | none => (Except.error (PyExn.keyError gsheet_name),
          (list_files 200 (Except.ok r)).2)
      | some gid => (Except.ok ur, (list_files 200 (Except.ok r)).2 ++
          [Event.updateRequest gid (sheet_name ++ "!" ++ cell) "RAW"
            df.values]) := by
  simp only [export_dataframe_to_gsheet]
  rw [list_files_ok_fst 200 r]

/-- C5 counterexample: with the name `report` absent from the listing,
`download_spreadsheet` does NOT fail with an unhandled exception — it
completes normally, passing the boolean `False` as the `fileId` and
returning the `True` of the helper. -/
theorem download_spreadsheet_missing_name_no_raise_cx :
    download_spreadsheet "report" "outputs" false ⟨2026, 10, 12, 9, 0, 30⟩
        (Except.ok ⟨some [], none⟩) [ChunkResp.chunk [] 100 true] =
      some (Except.ok (Sum.inr true),
        [Event.listRequest none 100 listFields,
         Event.print "No files found.",
         Event.mkdir "outputs",
         Event.exportMediaRequest (PyVal.bool false) xlsxMimeType,
         Event.nextChunk, Event.print "Download 100.",
         Event.write "outputs/report.xlsx" []]) := by
  rfl

/-- C5 (amended): a missing name raises an unhandled exception only in
`export_dataframe_to_gsheet` (a `KeyError` from the subscript `files[...]`);
`download_spreadsheet` instead falls back to the boolean `False` as the file
id and returns the outcome of the remote call as a normal value. -/
theorem missing_name_exception_only_in_export (r : ListResponse) :
    (∀ (df : DataFrame) (gsheet_name sheet_name cell : String)
      (ur : UpdateResult),
      List.lookup gsheet_name (okDict 200 r) = none →
      export_dataframe_to_gsheet df gsheet_name sheet_name cell
          (Except.ok r) ur =
        (Except.error (PyExn.keyError gsheet_name),
          (list_files 200 (Except.ok r)).2)) ∧
    (∀ (file_name folder : String) (wd : Bool) (dt : DateTime)
      (resps : List ChunkResp),
      List.lookup file_name (okDict 100 r) = none →
      idLookup r file_name = PyVal.bool false ∧
      ∀ x, download_spreadsheet file_name folder wd dt (Except.ok r)
          resps = some x → ∃ v, x.1 = Except.ok v) := by
  constructor
  · intro df gsheet_name sheet_name cell ur h
    rw [export_dataframe_ok_unfold, h]
  · intro file_name folder wd dt resps h
    have hid : idLookup r file_name = PyVal.bool false := by
      unfold idLookup
      rw [h]
    refine ⟨hid, ?_⟩
    intro x hx
    rw [download_spreadsheet_ok_unfold] at hx
    rcases Option.map_eq_some'.mp hx with ⟨p, hp, hpx⟩
    subst hpx
    exact ⟨p.1, rfl⟩

/-- C5 witness: a listing holding only the name `other`. -/
theorem missing_name_exception_only_in_export_witness :
    List.lookup "ghost" (okDict 200 ⟨some [⟨"i1", "other"⟩], none⟩) =
      none ∧
    (export_dataframe_to_gsheet ⟨[["1"]]⟩ "ghost" "tab" "A2"
        (Except.ok ⟨some [⟨"i1", "other"⟩], none⟩) ⟨"resp"⟩ =
      (Except.error (PyExn.keyError "ghost"),
        (list_files 200
          (Except.ok ⟨some [⟨"i1", "other"⟩], none⟩)).2)) ∧
    List.lookup "ghost" (okDict 100 ⟨some [⟨"i1", "other"⟩], none⟩) =
      none ∧
    (idLookup ⟨some [⟨"i1", "other"⟩], none⟩ "ghost" =
      PyVal.bool false ∧
    ∀ x, download_spreadsheet "ghost" "out" false
        ⟨2026, 10, 12, 9, 0, 30⟩
        (Except.ok ⟨some [⟨"i1", "other"⟩], none⟩) [] = some x →
      ∃ v, x.1 = Except.ok v) :=
  ⟨by decide,
    (missing_name_exception_only_in_export
      ⟨some [⟨"i1", "other"⟩], none⟩).1 ⟨[["1"]]⟩ "ghost" "tab" "A2"
      ⟨"resp"⟩ (by decide),
    by decide,
    (missing_name_exception_only_in_export
      ⟨some [⟨"i1", "other"⟩], none⟩).2 "ghost" "out" false
      ⟨2026, 10, 12, 9, 0, 30⟩ [] (by decide)⟩

/-- C7: `export_dataframe_to_gsheet` issues a single `values().update`
whose values are the rows of the dataframe, whose range is
`<sheet_name>!<cell_address>` (with `A2` the omitted-argument default),
with `valueInputOption` `RAW`, and returns the result unchanged. -/
theorem export_dataframe_single_update (df : DataFrame)
    (gsheet_name sheet_name cell : String) (r : ListResponse)
    (ur : UpdateResult) (gid : String)
    (h : List.lookup gsheet_name (okDict 200 r) = some gid) :
    export_dataframe_to_gsheet df gsheet_name sheet_name cell
        (Except.ok r) ur =
      (Except.ok ur, (list_files 200 (Except.ok r)).2 ++
        [Event.updateRequest gid (sheet_name ++ "!" ++ cell) "RAW"
          df.values]) ∧
    ((list_files 200 (Except.ok r)).2 ++
        [Event.updateRequest gid (sheet_name ++ "!" ++ cell) "RAW"
          df.values]).filter Event.isUpdate =
      [Event.updateRequest gid (sheet_name ++ "!" ++ cell) "RAW"
        df.values] ∧
    ∀ (df2 : DataFrame) (g s : String)
      (lr2 : Except HttpError ListResponse) (ur2 : UpdateResult),
      export_dataframe_to_gsheet_default df2 g s lr2 ur2 =
        export_dataframe_to_gsheet df2 g s "A2" lr2 ur2 := by
  refine ⟨?_, ?_, fun df2 g s lr2 ur2 => rfl⟩
  · rw [export_dataframe_ok_unfold, h]
  · simp [List.filter_append, list_files_no_update, Event.isUpdate]

/-- C7 witness: a two-row dataframe pushed into a found sheet. -/
theorem export_dataframe_single_update_witness :
    List.lookup "mysheet" (okDict 200 ⟨some [⟨"gid1", "mysheet"⟩], none⟩) =
      some "gid1" ∧
    (export_dataframe_to_gsheet ⟨[["1", "2"], ["3", "4"]]⟩ "mysheet"
        "tab" "B3" (Except.ok ⟨some [⟨"gid1", "mysheet"⟩], none⟩)
        ⟨"resp"⟩ =
      (Except.ok ⟨"resp"⟩,
        (list_files 200
          (Except.ok ⟨some [⟨"gid1", "mysheet"⟩], none⟩)).2 ++
        [Event.updateRequest "gid1" ("tab" ++ "!" ++ "B3") "RAW"
          [["1", "2"], ["3", "4"]]]) ∧
    ((list_files 200
        (Except.ok ⟨some [⟨"gid1", "mysheet"⟩], none⟩)).2 ++
        [Event.updateRequest "gid1" ("tab" ++ "!" ++ "B3") "RAW"
          [["1", "2"], ["3", "4"]]]).filter Event.isUpdate =
      [Event.updateRequest "gid1" ("tab" ++ "!" ++ "B3") "RAW"
        [["1", "2"], ["3", "4"]]] ∧
    ∀ (df2 : DataFrame) (g s : String)
      (lr2 : Except HttpError ListResponse) (ur2 : UpdateResult),
      export_dataframe_to_gsheet_default df2 g s lr2 ur2 =
        export_dataframe_to_gsheet df2 g s "A2" lr2 ur2) :=
  ⟨by decide, export_dataframe_single_update ⟨[["1", "2"], ["3", "4"]]⟩
    "mysheet" "tab" "B3" ⟨some [⟨"gid1", "mysheet"⟩], none⟩ ⟨"resp"⟩
    "gid1" (by decide)⟩

/-- C8: `empty_a_folder` lists the children of the folder (one page of up to
1000 via the `q` parent query) and deletes each listed file in order,
returning `True` when every delete succeeds; the first delete that raises
`HttpError` prints the error and returns `False` immediately, with no
delete issued for the remaining files. -/
theorem empty_a_folder_deletes (folder_id : String) (r : ListResponse)
    (svc : String → Option HttpError) :
    ((∀ f ∈ r.files.getD [], svc f.id = none) →
      empty_a_folder folder_id r svc =
        (true, Event.listRequest
            (some (sq ++ folder_id ++ sq ++ " in parents")) 1000
            listFields ::
          (r.files.getD []).map (fun f => Event.deleteRequest f.id))) ∧
    (∀ (pre : List DriveFile) (f : DriveFile) (post : List DriveFile)
      (e : HttpError),
      r.files.getD [] = pre ++ f :: post →
      (∀ g ∈ pre, svc g.id = none) → svc f.id = some e →
      empty_a_folder folder_id r svc =
        (false, Event.listRequest
            (some (sq ++ folder_id ++ sq ++ " in parents")) 1000
            listFields ::
          ((pre ++ [f]).map (fun g => Event.deleteRequest g.id) ++
            [Event.print ("An error occurred: " ++ e.msg)]))) := by
  constructor
  · intro hall
    unfold empty_a_folder
    rw [deleteLoop_all_ok svc (r.files.getD []) _ hall]
    simp
  · intro pre f post e hsplit hpre hf
    unfold empty_a_folder
    rw [hsplit, deleteLoop_err svc f post e pre _ hpre hf]
    simp

/-- C8 witness: a three-file folder whose second delete fails. -/
theorem empty_a_folder_deletes_witness :
    ((∀ f ∈ (ListResponse.mk
        (some [DriveFile.mk "a" "x"]) none).files.getD [],
      (fun _ => (none : Option HttpError)) f.id = none) ∧
    empty_a_folder "fld" (ListResponse.mk (some [DriveFile.mk "a" "x"])
        none) (fun _ => (none : Option HttpError)) =
      (true, Event.listRequest
          (some (sq ++ "fld" ++ sq ++ " in parents")) 1000 listFields ::
        ((ListResponse.mk (some [DriveFile.mk "a" "x"])
            none).files.getD []).map
          (fun f => Event.deleteRequest f.id))) ∧
    ((ListResponse.mk (some [DriveFile.mk "a" "x", DriveFile.mk "b" "y",
        DriveFile.mk "c" "z"]) none).files.getD [] =
      [DriveFile.mk "a" "x"] ++
        DriveFile.mk "b" "y" :: [DriveFile.mk "c" "z"] ∧
    (∀ g ∈ [DriveFile.mk "a" "x"],
      (fun i => if i = "b" then some (HttpError.mk "denied") else none)
        g.id = none) ∧
    (fun i => if i = "b" then some (HttpError.mk "denied") else none)
      (DriveFile.mk "b" "y").id = some (HttpError.mk "denied") ∧
    empty_a_folder "fld" (ListResponse.mk (some [DriveFile.mk "a" "x",
        DriveFile.mk "b" "y", DriveFile.mk "c" "z"]) none)
        (fun i => if i = "b" then some (HttpError.mk "denied")
          else none) =
      (false, Event.listRequest
          (some (sq ++ "fld" ++ sq ++ " in parents")) 1000 listFields ::
        (([DriveFile.mk "a" "x"] ++ [DriveFile.mk "b" "y"]).map
            (fun g => Event.deleteRequest g.id) ++
          [Event.print ("An error occurred: " ++ "denied")]))) :=
  ⟨⟨by decide,
    (empty_a_folder_deletes "fld"
      (ListResponse.mk (some [DriveFile.mk "a" "x"]) none)
      (fun _ => none)).1 (by decide)⟩,
    by decide, by decide, by decide,
    (empty_a_folder_deletes "fld"
      (ListResponse.mk (some [DriveFile.mk "a" "x", DriveFile.mk "b" "y",
        DriveFile.mk "c" "z"]) none)
      (fun i => if i = "b" then some (HttpError.mk "denied")
        else none)).2
      [DriveFile.mk "a" "x"] (DriveFile.mk "b" "y")
      [DriveFile.mk "c" "z"] (HttpError.mk "denied") (by decide)
      (by decide) (by decide)⟩

end GoogleApiUtils
